import Mathlib

/-!
Verification development for the lecturers-gpt-server repository.

The JavaScript source is shallowly embedded in Lean:

* strings are `String` / `List Char`; JS `.trim()`, `.toLowerCase()` and the
  regular expressions used by the code are implemented as executable
  character-list functions;
* JS numbers (IEEE doubles) are modelled as exact rationals `ℚ`; `Math.sqrt`
  is modelled by `ratSqrt`, which is exact on perfect squares (all concrete
  inputs used below have perfect-square norms, and no settled claim depends
  on the value of the square root on other inputs);
* asynchronous control flow is made explicit: the shared `AbortSignal` is
  modelled by an optional observation index `abortFrom`; every read of
  `abortSignal.aborted` performed by the code consumes one observation tick,
  in the (sequential) order in which the JavaScript engine performs them, and
  the signal reads `true` from tick `abortFrom` onwards (abort signals are
  monotone).  The signal is set only by `setTimeout`/abort-controller
  macrotasks, which can run only while the pipeline is suspended at a real
  `await` of pending I/O: function entry, the embedding call, and the store
  query.  Between those points (including the whole batch-scoring and
  result-building phase, whose `await`s are on already-resolved promises and
  yield only to the microtask queue) the flag is frozen, so the schedules the
  engine can produce are exactly those of `realizableAbort`; an arbitrary
  `abortFrom` is an over-approximation, and every concrete instance used
  below is realizable.  The `Promise.race` against the timeout timer is
  modelled by a boolean `timerWins`;
* external collaborators (OpenAI embeddings, Firestore) are parameters: the
  query embedding and the candidate documents returned by the store are
  inputs of the embedded functions; fallible code returns `Except`;
* fields holding wall-clock durations (`rag_total_ms`, `updatedAt`) and
  opaque metadata blobs are dropped from the embedding; log statements are
  dropped (reads of the abort signal that only guard logging do not change
  behaviour and are not counted as observation ticks).
-/

/-! ## Generic JavaScript string helpers -/

/-- Whitespace as used by JS `\s`, `trim()` (restricted to the ASCII
whitespace characters; none of the strings analysed here contain the more
exotic Unicode space characters). -/
def isWSChar (c : Char) : Bool :=
  c == ' ' || c == '\t' || c == '\n' || c == '\r' || c == '\x0b' || c == '\x0c'

/-- Characters that JS `\b` (without the `u` flag) treats as word characters:
ASCII letters, ASCII digits and underscore.  Hebrew letters are not word
characters. -/
def isWordChar (c : Char) : Bool :=
  (c.isAlpha && c.toNat < 128) || c.isDigit || c == '_'

def trimChars (l : List Char) : List Char :=
  ((l.dropWhile isWSChar).reverse.dropWhile isWSChar).reverse

/-- JS `String.prototype.trim`. -/
def jsTrim (s : String) : String :=
  ⟨trimChars s.data⟩

/-- JS `String.prototype.toLowerCase` (ASCII case folding; the Hebrew
characters appearing here are unaffected by case folding). -/
def jsToLower (s : String) : String :=
  ⟨s.data.map Char.toLower⟩

/-- Does `pat` occur as a contiguous substring of `text`? -/
def containsSub (pat text : List Char) : Bool :=
  text.tails.any (fun suf => pat.isPrefixOf suf)

/-- Case-insensitive substring occurrence. -/
def containsSubCI (pat text : List Char) : Bool :=
  containsSub (pat.map Char.toLower) (text.map Char.toLower)

/-! ### A small matcher for the specific regular expressions of the source

Each regex used by `topicState.js` is a sequence of the following tokens;
`matchHere` tries to match the token list at the start of a character list
(with backtracking for the optional single-character tokens, mirroring the
regex engine), and `containsPat` tries every starting position. -/

inductive RTok where
  | lit : List Char → RTok
  | litCI : List Char → RTok
  | ws0 : RTok
  | optDW : RTok
  | optDot : RTok
deriving Repr

def consumeLit (ci : Bool) : List Char → List Char → Option (List Char)
  | [], cs => some cs
  | _ :: _, [] => none
  | p :: ps, c :: cs =>
    if (if ci then p.toLower == c.toLower else p == c) then consumeLit ci ps cs
    else none

def matchHere : List RTok → List Char → Bool
  | [], _ => true
  | RTok.lit p :: ts, cs =>
    match consumeLit false p cs with
    | some rest => matchHere ts rest
    | none => false
  | RTok.litCI p :: ts, cs =>
    match consumeLit true p cs with
    | some rest => matchHere ts rest
    | none => false
  | RTok.ws0 :: ts, cs => matchHere ts (cs.dropWhile isWSChar)
  | RTok.optDW :: ts, cs =>
    (match cs with
     | c :: rest => (if c == '-' || isWSChar c then matchHere ts rest else false)
     | [] => false) || matchHere ts cs
  | RTok.optDot :: ts, cs =>
    (match cs with
     | c :: rest => (if c == '.' then matchHere ts rest else false)
     | [] => false) || matchHere ts cs

def containsPat (ts : List RTok) (text : List Char) : Bool :=
  text.tails.any (fun suf => matchHere ts suf)

/-- Occurrence of `w` delimited by JS word boundaries on both sides
(`\bw\b`), with optional case-insensitivity. -/
def containsWordAux (ci : Bool) (w : List Char) : Option Char → List Char → Bool
  | prev, cs =>
    ((match prev with
      | none => true
      | some p => !isWordChar p) &&
     (match consumeLit ci w cs with
      | some rest =>
        match rest with
        | [] => true
        | c :: _ => !isWordChar c
      | none => false)) ||
    (match cs with
     | [] => false
     | c :: rest => containsWordAux ci w (some c) rest)

def containsWord (ci : Bool) (w : List Char) (text : List Char) : Bool :=
  containsWordAux ci w none text

/-- Occurrence of literal `w` preceded by a JS word boundary (no condition on
the right side), as in `\b1\.`. -/
def containsLeftBdry (w : List Char) : Option Char → List Char → Bool
  | prev, cs =>
    ((match prev with
      | none => true
      | some p => !isWordChar p) && w.isPrefixOf cs) ||
    (match cs with
     | [] => false
     | c :: rest => containsLeftBdry w (some c) rest)

/-- Stable insertion: `x` is placed before the first element `y` with
`lt x y`, i.e. after every earlier element that is not strictly worse.
Together with `stableSortBy` this realises exactly the (stable) order that
`Array.prototype.sort` produces with the corresponding comparator. -/
def insertBy (lt : α → α → Bool) (x : α) : List α → List α
  | [] => [x]
  | y :: ys => if lt x y then x :: y :: ys else y :: insertBy lt x ys

def stableSortBy (lt : α → α → Bool) (l : List α) : List α :=
  l.foldl (fun acc x => insertBy lt x acc) []

/-! ## topicState.js — topic detection -/

/-- The `TOPIC_HEBREW` table of `topicState.js`. -/
def TOPIC_HEBREW : String → Option String
  | "mean" => some ("ממוצע")
  | "median" => some ("חציון")
  | "mode" => some ("שכיח")
  | "std" => some ("סטיית תקן")
  | "variance" => some ("שונות")
  | "z" => some ("ציון תקן (Z)")
  | "t" => some ("מבחן t")
  | "correlation" => some ("מתאם")
  | "regression" => some ("רגרסיה")
  | "sampling_distribution" => some ("התפלגות דגימה")
  | "confidence_interval" => some ("רווח סמך")
  | "hypothesis_testing" => some ("בדיקת השערות")
  | "anova" => some ("ANOVA (אנובה)")
  | "chi_square" => some ("חי-בריבוע")
  | "cronbach_alpha" => some ("אלפא של קרונבאך")
  | "unknown" => some ("הנושא")
  | _ => none

/-- Pattern set of the rule `mean`: `/\bmean\b/i`, `/ממוצע/`. -/
def ruleMean (t : List Char) : Bool :=
  containsWord true ("mean".data) t || containsSub ("ממוצע".data) t

def ruleMedian (t : List Char) : Bool :=
  containsWord true ("median".data) t || containsSub ("חציון".data) t

def ruleMode (t : List Char) : Bool :=
  containsWord true ("mode".data) t || containsSub ("שכיח".data) t

/-- `/standard\s*deviation/i`, `/סטי(י|י)ת\s*תקן/` (both alternatives of the
group are the letter yod, so the pattern is `סטיית\s*תקן`), `/סטיית\s*תקן/`. -/
def ruleStd (t : List Char) : Bool :=
  containsPat [RTok.litCI ("standard".data), RTok.ws0, RTok.litCI ("deviation".data)] t ||
  containsPat [RTok.lit ("סטיית".data), RTok.ws0, RTok.lit ("תקן".data)] t ||
  containsPat [RTok.lit ("סטיית".data), RTok.ws0, RTok.lit ("תקן".data)] t

def ruleVariance (t : List Char) : Bool :=
  containsWord true ("variance".data) t || containsSub ("שונות".data) t

/-- `/z[-\s]?score/i`, `/\bZ\b/` (case-sensitive), `/ציון\s*תקן/`. -/
def ruleZ (t : List Char) : Bool :=
  containsPat [RTok.litCI ("z".data), RTok.optDW, RTok.litCI ("score".data)] t ||
  containsWord false ("Z".data) t ||
  containsPat [RTok.lit ("ציון".data), RTok.ws0, RTok.lit ("תקן".data)] t

/-- `/t[-\s]?test/i`, `/מבחן\s*t/`, `/\bt\b/i`. -/
def ruleT (t : List Char) : Bool :=
  containsPat [RTok.litCI ("t".data), RTok.optDW, RTok.litCI ("test".data)] t ||
  containsPat [RTok.lit ("מבחן".data), RTok.ws0, RTok.lit ("t".data)] t ||
  containsWord true ("t".data) t

def ruleCorrelation (t : List Char) : Bool :=
  containsSubCI ("correlation".data) t || containsSub ("קורלציה".data) t ||
  containsSub ("מתאם".data) t

/-- `/regression/i`, `/רגרס(יה|ייה)/`. -/
def ruleRegression (t : List Char) : Bool :=
  containsSubCI ("regression".data) t || containsSub ("רגרסיה".data) t ||
  containsSub ("רגרסייה".data) t

def ruleSamplingDistribution (t : List Char) : Bool :=
  containsPat [RTok.litCI ("sampling".data), RTok.ws0, RTok.litCI ("distribution".data)] t ||
  containsPat [RTok.lit ("התפלגות".data), RTok.ws0, RTok.lit ("דגימה".data)] t

def ruleConfidenceInterval (t : List Char) : Bool :=
  containsPat [RTok.litCI ("confidence".data), RTok.ws0, RTok.litCI ("interval".data)] t ||
  containsPat [RTok.lit ("רווח".data), RTok.ws0, RTok.lit ("סמך".data)] t

def ruleHypothesisTesting (t : List Char) : Bool :=
  containsPat [RTok.litCI ("hypothesis".data), RTok.ws0, RTok.litCI ("test".data)] t ||
  containsPat [RTok.lit ("בדיקת".data), RTok.ws0, RTok.lit ("השערות".data)] t ||
  containsPat [RTok.lit ("מבחן".data), RTok.ws0, RTok.lit ("השערות".data)] t

def ruleAnova (t : List Char) : Bool :=
  containsWord true ("anova".data) t || containsSub ("אנובה".data) t

/-- `/chi[-\s]?square/i`, `/חי[-\s]?בריבוע/`, `/כי[-\s]?בריבוע/`. -/
def ruleChiSquare (t : List Char) : Bool :=
  containsPat [RTok.litCI ("chi".data), RTok.optDW, RTok.litCI ("square".data)] t ||
  containsPat [RTok.lit ("חי".data), RTok.optDW, RTok.lit ("בריבוע".data)] t ||
  containsPat [RTok.lit ("כי".data), RTok.optDW, RTok.lit ("בריבוע".data)] t

/-- `/cronbach/i`, `/אלפא/i`, `/קרונבאך/`, `/מהימנות/`. -/
def ruleCronbachAlpha (t : List Char) : Bool :=
  containsSubCI ("cronbach".data) t || containsSubCI ("אלפא".data) t ||
  containsSub ("קרונבאך".data) t || containsSub ("מהימנות".data) t

/-- `detectTopic` of `topicState.js`: first matching rule of `TOPIC_RULES`
wins, sentinel `"unknown"` when no rule matches. -/
def detectTopic (userText : String) : String :=
  let t := (jsTrim userText).data
  if ruleMean t then "mean"
  else if ruleMedian t then "median"
  else if ruleMode t then "mode"
  else if ruleStd t then "std"
  else if ruleVariance t then "variance"
  else if ruleZ t then "z"
  else if ruleT t then "t"
  else if ruleCorrelation t then "correlation"
  else if ruleRegression t then "regression"
  else if ruleSamplingDistribution t then "sampling_distribution"
  else if ruleConfidenceInterval t then "confidence_interval"
  else if ruleHypothesisTesting t then "hypothesis_testing"
  else if ruleAnova t then "anova"
  else if ruleChiSquare t then "chi_square"
  else if ruleCronbachAlpha t then "cronbach_alpha"
  else "unknown"

/-- `isFastPassRequest` of `topicState.js`. -/
def isFastPassRequest (userText : String) : Bool :=
  let t := (jsToLower userText).data
  containsSub ("final:".data) t ||
  containsSub ("answer:".data) t ||
  containsSub ("full:".data) t ||
  containsSub ("פתור:".data) t ||
  containsSub ("תן לי פתרון מלא".data) t

def isADLetter (c : Char) : Bool :=
  let l := c.toLower
  l == 'a' || l == 'b' || l == 'c' || l == 'd'

/-- After at least one whitespace character, at least one non-newline
character follows (the `\s+.+` tail of `answerWithTextPattern`). -/
def hasNonNLAfterWS : List Char → Bool
  | [] => false
  | c :: rest => (c != '\n') || (isWSChar c && hasNonNLAfterWS rest)

/-- `isAnswerToMultipleChoice` of `topicState.js`: the three anchored
patterns `/^[A-D][\)\.]\s*/i`, `/^[A-D]$/i` and `/^[A-D][\)\.]\s+.+/i`,
tested on the trimmed prompt. -/
def isAnswerToMultipleChoice (prompt : String) : Bool :=
  let text := (jsTrim prompt).data
  (match text with
   | a :: b :: _ => isADLetter a && (b == ')' || b == '.')
   | _ => false) ||
  (match text with
   | [a] => isADLetter a
   | _ => false) ||
  (match text with
   | a :: b :: rest =>
     isADLetter a && (b == ')' || b == '.') &&
     (match rest with
      | [] => false
      | c :: more => isWSChar c && hasNonNLAfterWS more)
   | _ => false)

/-! ## topicState.js — user state and decideTurn -/

/-- `normalizeEmail` of `topicState.js`: `(rawEmail || "").toLowerCase().trim()`. -/
def normalizeEmail (rawEmail : String) : String :=
  jsTrim (jsToLower rawEmail)

/-- `UserState` (without the wall-clock `updatedAt` field).  The
`diagnosedTopics` JS object `\x7b [topicId]: true \x7d` is modelled as the
list of topic ids that are set. -/
structure UserState where
  email : String
  currentTopic : Option String
  phase : String
  diagnosedTopics : List String
deriving DecidableEq, Repr

/-- `defaultUserState` of `topicState.js`. -/
def defaultUserState (email : String) : UserState :=
  { email := normalizeEmail email
    currentTopic := none
    phase := "IDLE"
    diagnosedTopics := [] }

/-- Setting `diagnosedTopics[topicId] = true` on the modelled object. -/
def markDiagnosed (l : List String) (topicId : String) : List String :=
  if topicId ∈ l then l else l ++ [topicId]

/-- JS `state?.currentTopic || null`: the empty string is falsy and
collapses to `null`. -/
def jsTopicOrNull (t : Option String) : Option String :=
  match t with
  | some s => if s = "" then none else some s
  | none => none

/-- Result record of `decideTurn`. -/
structure TurnDecision where
  explicitTopic : String
  activeTopic : String
  wantsFastPass : Bool
  diagnosisOnly : Bool
  ragQuery : String
  nextState : UserState
deriving DecidableEq, Repr

/-- `decideTurn` of `topicState.js` (lines 210–281), translated clause by
clause.  `state?.phase || "IDLE"` is modelled by collapsing the falsy empty
string to `"IDLE"`. -/
def decideTurn (prompt : String) (state : UserState) : TurnDecision :=
  let explicitTopic := detectTopic prompt
  let wantsFastPass := isFastPassRequest prompt
  let isAnswer := isAnswerToMultipleChoice prompt
  let currentTopic := jsTopicOrNull state.currentTopic
  let diagnosedTopics := state.diagnosedTopics
  let phase := if state.phase = "" then "IDLE" else state.phase
  let hasActiveTopic := currentTopic.isSome
  let topicChanged := explicitTopic ≠ "unknown" ∧ currentTopic ≠ some explicitTopic
  let activeTopic :=
    if explicitTopic ≠ "unknown" then explicitTopic
    else match currentTopic with
         | some c => c
         | none => "unknown"
  let diagnosisOnly :=
    if wantsFastPass then false
    else if isAnswer ∧ phase = "DIAGNOSE" then false
    else if activeTopic = "unknown" ∧ ¬hasActiveTopic then true
    else if topicChanged then ¬(explicitTopic ∈ diagnosedTopics)
    else if ¬hasActiveTopic ∧ explicitTopic ≠ "unknown" then ¬(explicitTopic ∈ diagnosedTopics)
    else if phase = "IDLE" ∧ activeTopic ≠ "unknown" then ¬(activeTopic ∈ diagnosedTopics)
    else false
  let baseNext : UserState :=
    { email := state.email
      currentTopic := if activeTopic = "unknown" then currentTopic else some activeTopic
      phase := if diagnosisOnly then "DIAGNOSE"
               else if activeTopic = "unknown" then "IDLE" else "TEACH"
      diagnosedTopics := diagnosedTopics }
  let next1 :=
    if diagnosisOnly ∧ activeTopic ≠ "unknown" then
      { baseNext with diagnosedTopics := markDiagnosed baseNext.diagnosedTopics activeTopic }
    else baseNext
  let next2 :=
    if isAnswer ∧ phase = "DIAGNOSE" ∧ activeTopic ≠ "unknown" then
      { next1 with
          phase := "TEACH"
          diagnosedTopics := markDiagnosed next1.diagnosedTopics activeTopic }
    else next1
  let ragQuery :=
    if activeTopic ≠ "unknown" ∧ explicitTopic = "unknown" then
      jsTrim (((TOPIC_HEBREW activeTopic).getD ("")) ++ " " ++ prompt)
    else prompt
  { explicitTopic := explicitTopic
    activeTopic := activeTopic
    wantsFastPass := wantsFastPass
    diagnosisOnly := diagnosisOnly
    ragQuery := ragQuery
    nextState := next2 }

/-! ## topicState.js — diagnosis-only output guard -/

/-- Sentence-terminator character class of `countSentencesHeuristically`:
`/[.!?…]|׃/`. -/
def sentenceTerm (c : Char) : Bool :=
  c == '.' || c == '!' || c == '?' || c == '…' || c == '׃'

/-- The `text.replace(/\n+/g, " ")` step: collapse every maximal run of
newlines to a single space. -/
def collapseNLAux : Bool → List Char → List Char
  | _, [] => []
  | inNL, c :: rest =>
    if c == '\n' then
      (if inNL then collapseNLAux true rest else ' ' :: collapseNLAux true rest)
    else c :: collapseNLAux false rest

def collapseNL (l : List Char) : List Char :=
  collapseNLAux false l

/-- JS `String.prototype.split` on the terminator class: `n` separators yield
`n + 1` (possibly empty) segments. -/
def splitOnTerm : List Char → List (List Char)
  | [] => [[]]
  | c :: rest =>
    if sentenceTerm c then [] :: splitOnTerm rest
    else
      match splitOnTerm rest with
      | s :: ss => (c :: s) :: ss
      | [] => [[c]]

/-- `countSentencesHeuristically` of `topicState.js`. -/
def countSentencesHeuristically (text : String) : Nat :=
  (((splitOnTerm (collapseNL text.data)).map trimChars).filter (fun s => s ≠ [])).length


/-- Any `$` not followed by a whitespace character (the `/\$(?!\s)/` check;
a `$` at the end of the text also matches, since the negative lookahead
succeeds there). -/
def dollarNonWS : List Char → Bool
  | [] => false
  | c :: rest =>
    (c == '$' && (match rest with
                  | [] => true
                  | d :: _ => !isWSChar d)) || dollarNonWS rest

/-- A `-` immediately followed by whitespace (the `/\-\s/` check). -/
def dashThenWS : List Char → Bool
  | [] => false
  | [_] => false
  | a :: b :: rest => (a == '-' && isWSChar b) || dashThenWS (b :: rest)

/-- `hasForbiddenDiagnosisContent` of `topicState.js`, pattern by pattern. -/
def hasForbiddenDiagnosisContent (text : String) : Bool :=
  let cs := text.data
  containsSub ("$$".data) cs ||
  dollarNonWS cs ||
  (containsSub ("\\frac".data) cs || containsSub ("\\mu".data) cs ||
   containsSub ("\\sigma".data) cs || containsSub ("\\sum".data) cs ||
   containsSub ("\\sqrt".data) cs || containsSub ("\\int".data) cs) ||
  cs.contains '=' ||
  (containsSub ("1️⃣".data) cs || containsSub ("2️⃣".data) cs ||
   containsSub ("3️⃣".data) cs ||
   containsLeftBdry ("1.".data) none cs || containsLeftBdry ("2.".data) none cs ||
   containsLeftBdry ("3.".data) none cs || dashThenWS cs) ||
  (containsSub ("הגדרה".data) cs || containsSub ("דוגמה".data) cs ||
   containsSub ("נוסחה".data) cs || containsSub ("נוסחאות".data) cs ||
   containsSub ("משוואה".data) cs || containsSub ("מאפיינים".data) cs) ||
  (containsSub ("חומרים".data) cs || containsSub ("קורפוס".data) cs ||
   containsSub ("RAG".data) cs ||
   containsPat [RTok.lit ("Dr".data), RTok.optDot, RTok.ws0, RTok.lit ("Galit".data)] cs ||
   containsPat [RTok.lit ("גלית".data), RTok.ws0, RTok.lit ("מדר".data)] cs ||
   containsSub ("מדר".data) cs)

/-- Number of question marks in a string. -/
def qMarkCount (s : String) : Nat :=
  (s.data.filter (fun c => c == '?')).length

/-- `isValidDiagnosisOnlyOutput` of `topicState.js` (lines 159–170),
translated check by check in source order. -/
def isValidDiagnosisOnlyOutput (output : String) : Bool :=
  let text := jsTrim output
  if text = "" then false
  else if text.length > 320 then false
  else if countSentencesHeuristically text > 2 then false
  else if !(text.data.contains '?') then false
  else if qMarkCount text > 2 then false
  else if hasForbiddenDiagnosisContent text then false
  else true

/-- `forcedDiagnosticTemplate` of `topicState.js`: a deterministic fallback
that depends only on the topic id. -/
def forcedDiagnosticTemplate (topicId : String) : String :=
  let topicName := (TOPIC_HEBREW topicId).getD (((TOPIC_HEBREW ("unknown")).getD ("")))
  if topicId = "unknown" then
    "שאלה מצוינת 🙂 על איזה נושא בסטטיסטיקה אתה רוצה ללמוד? ומה אתה כבר יודע עליו?"
  else
    "שאלה מצוינת 🙂 לפני שנתחיל—מה אתה כבר יודע על " ++ topicName ++ "? יצא לך להשתמש בזה בעבר?"

/-- The guard substitution performed by the request handler in `index.js`
(`if (turn.diagnosisOnly && !isValidDiagnosisOnlyOutput(answer)) answer =
forcedDiagnosticTemplate(turn.activeTopic)`), applied to the already rendered
(post-LLM, LaTeX-cleaned) answer. -/
def applyDiagnosisGuard (diagnosisOnly : Bool) (answer : String) (activeTopic : String) : String :=
  if diagnosisOnly ∧ ¬(isValidDiagnosisOnlyOutput answer = true) then
    forcedDiagnosticTemplate activeTopic
  else answer

/-- Number of sentence-terminator characters in a string — the reading of
"sentence-terminators" used by the claim under scrutiny (the code itself
counts nonempty segments between terminators instead). -/
def countSentenceTerminators (s : String) : Nat :=
  (s.data.filter sentenceTerm).length

/-! ## rag.js — cosine similarity -/

/-- Largest `k ≤ bound` with `k * k ≤ n` (a structurally recursive integer
square root, so that concrete runs evaluate). -/
def isqrtAux (n : Nat) : Nat → Nat
  | 0 => 0
  | k + 1 => if (k + 1) * (k + 1) ≤ n then k + 1 else isqrtAux n k

/-- Integer square root: `⌊√n⌋`. -/
def isqrt (n : Nat) : Nat :=
  isqrtAux n n

/-- Model of `Math.sqrt` on the rationals: exact on perfect squares (every
concrete norm used in this development is a perfect square); on other inputs
it returns the rational with the integer square roots of numerator and
denominator, which no settled claim depends on. -/
def ratSqrt (q : ℚ) : ℚ :=
  (isqrt q.num.toNat : ℚ) / (isqrt q.den : ℚ)

/-- `cosineSimilarity` of `rag.js` (lines 86–101): the single loop
accumulating `dotProduct`, `normA`, `normB` is rendered with the equivalent
list folds; the two guard branches return the exact value `0`. -/
def cosineSimilarity (vecA vecB : List ℚ) : ℚ :=
  if vecA.length ≠ vecB.length then 0
  else
    let dotProduct := (List.zipWith (fun a b => a * b) vecA vecB).sum
    let normA := (vecA.map (fun a => a * a)).sum
    let normB := (vecB.map (fun b => b * b)).sum
    if normA = 0 ∨ normB = 0 then 0
    else dotProduct / (ratSqrt normA * ratSqrt normB)

/-! ## rag.js — retrieval pipeline -/

/-- A raw Firestore document from the `rag_chunks` collection.  A missing or
non-array `embedding` field is modelled as `none`. -/
structure RawDoc where
  id : String
  text : String
  source : String
  course_name : String
  embedding : Option (List ℚ)
deriving DecidableEq, Repr

/-- An element of the `similarities` array built by `performRAGWork`. -/
structure ScoredChunk where
  id : String
  text : String
  source : String
  course_name : String
  similarity : ℚ
deriving DecidableEq, Repr

/-- An element of the returned `sources` array. -/
structure SourceRef where
  source : String
  score : ℚ
  course_name : String
deriving DecidableEq, Repr

/-- The `_metrics` record (without the wall-clock `rag_total_ms` and the
constant `maxDocs` echo). -/
structure RagMetrics where
  status : String
  retrieved_count : Nat
  processed_count : Nat
  returned_count : Nat
deriving DecidableEq, Repr

structure RagResult where
  chunks : List String
  sources : List SourceRef
  metrics : RagMetrics
deriving DecidableEq, Repr

/-- The value `abortSignal?.aborted` reads at observation tick `t` when the
signal is set just before tick `abortFrom` (never, for `none`): abort
signals are monotone, so the signal reads true from that tick onwards.
An arbitrary `abortFrom` over-approximates the engine: only the schedules
of `realizableAbort` below can actually occur, and every settled claim
instantiates `abortFrom` with one of those. -/
def obsA (abortFrom : Option Nat) (t : Nat) : Bool :=
  match abortFrom with
  | none => false
  | some k => decide (k ≤ t)

/-- The abort schedules the JavaScript engine can actually produce.  The
signal is set by a macrotask, which can only run while `performRAGWork` is
suspended on pending I/O; its awaits of pending promises are the embedding
call (rag.js:238) and the store query (rag.js:265).  Hence the first guard
to observe the abort is the entry guard (tick 0, flag set before the call),
the post-embedding guard (tick 1, flag set during the embedding await), or
the post-query guard (tick 3, flag set during the store await); every later
read — the batch loop and the result loop run as one unbroken microtask
cascade — sees a frozen flag and can never be the first true observation. -/
def realizableAbort (abortFrom : Option Nat) : Prop :=
  abortFrom = none ∨ abortFrom = some 0 ∨ abortFrom = some 1 ∨ abortFrom = some 3

/-- The similarity threshold of the result filter (`result.similarity > 0.05`). -/
def ragThreshold : ℚ := 5 / 100

/-- Scoring of one document (the body of the `batch.map` callback, lines
317–351): one abort read, then the embedding-presence and dimension checks,
then `cosineSimilarity`.  `data.source || "unknown"` collapses the falsy
empty string. -/
def scoreDocPure (qe : List ℚ) (d : RawDoc) : Option ScoredChunk :=
  match d.embedding with
  | none => none
  | some emb =>
    if emb.length ≠ qe.length then none
    else some
      { id := d.id
        text := d.text
        source := if d.source = "" then "unknown" else d.source
        course_name := d.course_name
        similarity := cosineSimilarity qe emb }

def scoreDocAt (qe : List ℚ) (abortFrom : Option Nat) (d : RawDoc) (t : Nat) :
    Option ScoredChunk :=
  if obsA abortFrom t then none else scoreDocPure qe d

/-- Scoring of one batch: the `async` callbacks of `batch.map` contain no
`await`, so the engine runs them to completion sequentially, each performing
one abort read. -/
def scoreBatch (qe : List ℚ) (abortFrom : Option Nat) :
    List RawDoc → Nat → List ScoredChunk × Nat
  | [], t => ([], t)
  | d :: rest, t =>
    let r := scoreDocAt qe abortFrom d t
    let (others, t2) := scoreBatch qe abortFrom rest (t + 1)
    (match r with
     | some sc => sc :: others
     | none => others, t2)

/-- Slicing of `chunksArray` into `BATCH_SIZE = 50` batches, written with a
structural fuel argument (the list length bounds the number of slices) so
that the function reduces inside the kernel. -/
def toBatchesFuel (n : Nat) : Nat → List α → List (List α)
  | _, [] => []
  | 0, _ :: _ => []
  | fuel + 1, x :: xs => (x :: xs.take (n - 1)) :: toBatchesFuel n fuel (xs.drop (n - 1))

def toBatches (n : Nat) (l : List α) : List (List α) :=
  toBatchesFuel n l.length l

/-- The batch loop of `performRAGWork` (lines 307–363): one abort read
before each batch (`break` on abort), the per-document reads, and one abort
read after each batch — a break there discards the batch's results, which
are pushed only after the check. -/
def batchLoop (qe : List ℚ) (abortFrom : Option Nat) :
    List (List RawDoc) → Nat → List ScoredChunk → List ScoredChunk × Nat
  | [], t, acc => (acc, t)
  | b :: rest, t, acc =>
    if obsA abortFrom t then (acc, t + 1)
    else
      let (scored, t1) := scoreBatch qe abortFrom b (t + 1)
      if obsA abortFrom t1 then (acc, t1 + 1)
      else batchLoop qe abortFrom rest (t1 + 1) (acc ++ scored)

/-- The comparator `(a, b) => b.similarity - a.similarity`: `a` precedes `b`
exactly when `a.similarity > b.similarity`; `Array.prototype.sort` is
stable. -/
def sortBySimilarityDesc (l : List ScoredChunk) : List ScoredChunk :=
  stableSortBy (fun a b => decide (a.similarity > b.similarity)) l

/-- `sourceName.split('/').pop().split('\\').pop()`: the suffix after the
last `/`, then the suffix after the last `\` (the whole string when the
separator is absent; the empty string for a trailing separator, matching
`split`/`pop`). -/
def afterLastSep (sep : Char) (l : List Char) : List Char :=
  (l.reverse.takeWhile (fun c => c ≠ sep)).reverse

def normalizeSource (s : String) : String :=
  ⟨afterLastSep '\\' (afterLastSep '/' s.data)⟩

/-- The result-building loop of `performRAGWork` (lines 389–413): one abort
read per result (`break` on abort), the `text`/threshold filter, `chunks`
pushed unconditionally for passing results, `sources` pushed only for an
unseen normalized source. -/
def buildResults (abortFrom : Option Nat) :
    List ScoredChunk → Nat → List String → List SourceRef → List String →
    List String × List SourceRef × Nat
  | [], t, cks, srcs, _ => (cks, srcs, t)
  | r :: rest, t, cks, srcs, seen =>
    if obsA abortFrom t then (cks, srcs, t + 1)
    else if r.text ≠ "" ∧ r.similarity > ragThreshold then
      let sourceName := if r.source = "" then "unknown" else r.source
      let normalized := normalizeSource sourceName
      if normalized ∈ seen then
        buildResults abortFrom rest (t + 1) (cks ++ [r.text]) srcs seen
      else
        buildResults abortFrom rest (t + 1) (cks ++ [r.text])
          (srcs ++ [{ source := r.source, score := r.similarity, course_name := r.course_name }])
          (seen ++ [normalized])
    else buildResults abortFrom rest (t + 1) cks srcs seen

/-- `performRAGWork` of `rag.js` (lines 224–442), with the query embedding
and the Firestore snapshot as inputs.  The four leading abort guards throw
`RAG_TIMEOUT` (ticks 0–3); the pre-sort guard (line 371) throws as well; the
second component is the observation tick reached when the function
settles. -/
def performRAGWork (qe : List ℚ) (docs : List RawDoc) (topK : Nat)
    (abortFrom : Option Nat) : Except String RagResult × Nat :=
  if obsA abortFrom 0 then (Except.error ("RAG_TIMEOUT"), 1)
  else if obsA abortFrom 1 then (Except.error ("RAG_TIMEOUT"), 2)
  else if obsA abortFrom 2 then (Except.error ("RAG_TIMEOUT"), 3)
  else if obsA abortFrom 3 then (Except.error ("RAG_TIMEOUT"), 4)
  else if docs = [] then
    (Except.ok
      { chunks := []
        sources := []
        metrics := { status := "no_chunks", retrieved_count := 0,
                     processed_count := 0, returned_count := 0 } }, 4)
  else
    let scoredT := batchLoop qe abortFrom (toBatches 50 docs) 4 []
    if obsA abortFrom scoredT.2 then (Except.error ("RAG_TIMEOUT"), scoredT.2 + 1)
    else
      let top := (sortBySimilarityDesc scoredT.1).take topK
      let built := buildResults abortFrom top (scoredT.2 + 1) [] [] []
      (Except.ok
        { chunks := built.1
          sources := built.2.1
          metrics := { status := "success", retrieved_count := docs.length,
                       processed_count := scoredT.1.length,
                       returned_count := built.1.length } }, built.2.2)

/-- The list of scored candidates when no abort occurs: every document with a
present, dimension-matching embedding, in snapshot order. -/
def scoreAll (qe : List ℚ) (docs : List RawDoc) : List ScoredChunk :=
  docs.filterMap (scoreDocPure qe)

/-- The filter applied inside the result loop: nonempty text and similarity
strictly above the threshold. -/
def passPred (r : ScoredChunk) : Bool :=
  decide (r.text ≠ "" ∧ r.similarity > ragThreshold)

/-- The candidates that pass sorting, top-K slicing and the threshold filter
on an abort-free run. -/
def passingOf (qe : List ℚ) (docs : List RawDoc) (topK : Nat) : List ScoredChunk :=
  ((sortBySimilarityDesc (scoreAll qe docs)).take topK).filter passPred

/-- The normalized source identifier of a scored candidate (path basename,
with the falsy-empty-string default applied first). -/
def normKey (r : ScoredChunk) : String :=
  normalizeSource (if r.source = "" then "unknown" else r.source)

/-- The normalized source identifier of a returned source entry. -/
def srcKey (s : SourceRef) : String :=
  normalizeSource (if s.source = "" then "unknown" else s.source)

/-- Deduplication by normalized source with the first occurrence winning,
written directly from the specification's words; compared below with the
source list the code actually builds. -/
def dedupFirstBySource : List ScoredChunk → List String → List SourceRef
  | [], _ => []
  | r :: rest, seen =>
    if normKey r ∈ seen then dedupFirstBySource rest seen
    else { source := r.source, score := r.similarity, course_name := r.course_name } ::
      dedupFirstBySource rest (seen ++ [normKey r])

/-! ## rag.js — cache and queryRAG -/

def RAG_CACHE_TTL : Nat := 60000

/-- The cached `\x7b chunks, sources \x7d` payload. -/
structure CachedData where
  chunks : List String
  sources : List SourceRef
deriving DecidableEq, Repr

/-- The `ragCache` map: association list of key, timestamp and payload. -/
def RagCache := List (String × Nat × CachedData)

/-- `getCacheKey` of `rag.js`: `courseName || 'all'` (null or empty string
fall back to `'all'`) joined with the first 50 characters of the query. -/
def getCacheKey (queryText : String) (courseName : Option String) : String :=
  (match courseName with
   | some c => if c = "" then "all" else c
   | none => "all") ++ "_" ++ queryText.take 50

def cacheFind : RagCache → String → Option (Nat × CachedData)
  | [], _ => none
  | (k, ts, d) :: rest, key => if k = key then some (ts, d) else cacheFind rest key

/-- `getCachedResult` of `rag.js`: a hit requires `now - timestamp ≤ TTL`
(the code deletes and misses when the age is strictly greater). -/
def getCachedResult (cache : RagCache) (now : Nat) (key : String) : Option CachedData :=
  match cacheFind cache key with
  | none => none
  | some (ts, d) => if now - ts > RAG_CACHE_TTL then none else some d

/-- `setCachedResult` of `rag.js` (`Map.set`: replace any entry of the same
key). -/
def setCachedResult (cache : RagCache) (now : Nat) (key : String) (d : CachedData) :
    RagCache :=
  (key, now, d) :: cache.filter (fun e => e.1 ≠ key)

/-- The quota test of the outer catch (`e.message` containment; the gRPC
numeric code is not representable on string errors). -/
def isQuotaError (e : String) : Bool :=
  containsSub ("Quota exceeded".data) e.data ||
  containsSub ("RESOURCE_EXHAUSTED".data) e.data

def emptyRagResult (status : String) : RagResult :=
  { chunks := []
    sources := []
    metrics := { status := status, retrieved_count := 0, processed_count := 0,
                 returned_count := 0 } }

/-- `queryRAG` of `rag.js` (lines 104–221): cache lookup, then the optional
`Promise.race` against the timeout timer (`timerWins` says the timer settled
first), the inner catch (`RAG_TIMEOUT` or an aborted signal yield the
`timeout` result), and the outer catch (aborted → `timeout`, quota →
`quota_exceeded`, otherwise `error`).  The catch-time reads of
`abortSignal?.aborted` happen at or after the tick at which the work
settled.  The function always returns a `RagResult`: no exception reaches
the caller. -/
def queryRAG (cache : RagCache) (now : Nat) (queryText : String) (topK : Nat)
    (courseName : Option String) (hasTimeout timerWins : Bool)
    (qe : List ℚ) (docs : List RawDoc) (abortFrom : Option Nat) : RagResult :=
  let key := getCacheKey queryText courseName
  match getCachedResult cache now key with
  | some c =>
    { chunks := c.chunks
      sources := c.sources
      metrics := { status := "cache_hit", retrieved_count := 0, processed_count := 0,
                   returned_count := c.chunks.length } }
  | none =>
    let work := performRAGWork qe docs topK abortFrom
    let raceRes := if hasTimeout ∧ timerWins then Except.error ("RAG_TIMEOUT") else work.1
    match raceRes with
    | Except.ok r => r
    | Except.error e =>
      if hasTimeout ∧ (e = "RAG_TIMEOUT" ∨ obsA abortFrom work.2) then
        emptyRagResult ("timeout")
      else if obsA abortFrom work.2 then emptyRagResult ("timeout")
      else if isQuotaError e then emptyRagResult ("quota_exceeded")
      else emptyRagResult ("error")

/-! ## rag.js — getRAGContext -/

structure RAGContext where
  context : Option String
  sources : List SourceRef
  chunksCount : Nat
  metrics : RagMetrics
deriving DecidableEq, Repr

/-- One entry of the context string: `[מקור i+1: source]\n chunk` (the colon
part only when `source.source` is truthy). -/
def contextSegment (i : Nat) (s : SourceRef) (chunk : String) : String :=
  "[מקור " ++ toString (i + 1) ++
  (if s.source ≠ "" then ": " ++ s.source else "") ++ "]\n" ++ chunk

/-- The `chunks.map((chunk, i) => ...)` loop of `getRAGContext`: reading
`sources[i]` past the end of `sources` yields `undefined`, and the
subsequent `source.source` access throws a `TypeError`. -/
def contextSegments (sources : List SourceRef) : List String → Nat →
    Except String (List String)
  | [], _ => Except.ok []
  | c :: rest, i =>
    match sources.get? i with
    | none => Except.error ("TypeError")
    | some s =>
      match contextSegments sources rest (i + 1) with
      | Except.ok segs => Except.ok (contextSegment i s c :: segs)
      | Except.error e => Except.error e

/-- The context-building step of `getRAGContext` (lines 548–575) applied to
the retrieval result. -/
def getRAGContextOfResult (r : RagResult) : Except String RAGContext :=
  if r.chunks = [] then
    Except.ok { context := none, sources := [], chunksCount := 0, metrics := r.metrics }
  else
    match contextSegments r.sources r.chunks 0 with
    | Except.ok segs =>
      Except.ok
        { context := some (String.intercalate ("\n\n---\n\n") segs)
          sources := r.sources
          chunksCount := r.chunks.length
          metrics := r.metrics }
    | Except.error e => Except.error e

/-- `getRAGContext` of `rag.js`: `queryRAG` followed by context building. -/
def getRAGContext (cache : RagCache) (now : Nat) (queryText : String) (topK : Nat)
    (courseName : Option String) (hasTimeout timerWins : Bool)
    (qe : List ℚ) (docs : List RawDoc) (abortFrom : Option Nat) :
    Except String RAGContext :=
  getRAGContextOfResult
    (queryRAG cache now queryText topK courseName hasTimeout timerWins qe docs abortFrom)

/-! ## chatMemory.js — conversation history -/

def MAX_HISTORY_MESSAGES : Nat := 20

def MAX_STORED_MESSAGES_PER_USER : Nat := 200

/-- A stored `chat_messages` document (timestamps as naturals). -/
structure StoredMsg where
  role : String
  content : String
  createdAt : Nat
deriving DecidableEq, Repr

/-- An OpenAI-format message as returned to the caller. -/
structure ChatMsg where
  role : String
  content : String
deriving DecidableEq, Repr

/-- `getUserConversationHistory` of `chatMemory.js` (lines 70–117): the
Firestore query orders the user's messages by `createdAt` ascending (a
stable sort of the stored list) and caps them at
`MAX_STORED_MESSAGES_PER_USER`; the rows are projected to
`\x7b role, content \x7d`; when more than `limit` remain, only the last
`limit` are kept (`messages.slice(-limit)`). -/
def getUserConversationHistory (stored : List StoredMsg) (limit : Nat) : List ChatMsg :=
  let snapshot :=
    (stableSortBy (fun a b => decide (a.createdAt < b.createdAt)) stored).take
      MAX_STORED_MESSAGES_PER_USER
  let messages := snapshot.map (fun d => { role := d.role, content := d.content : ChatMsg })
  if messages.length > limit then messages.drop (messages.length - limit) else messages

/-- `estimateTokens` of `performanceLogger.js`: `Math.ceil(text.length / 4)`
(`0` for a non-string or empty input, which the ceiling formula also
gives). -/
def estimateTokens (text : String) : Nat :=
  (text.length + 3) / 4

/-- `estimateMessagesTokens` of `performanceLogger.js`: a `reduce` adding
`estimateTokens(content) + 10` (the fixed per-message overhead) per
message. -/
def estimateMessagesTokens (messages : List ChatMsg) : Nat :=
  messages.foldl (fun total m => total + (estimateTokens m.content + 10)) 0

/-- The token budget of the history limiter in `index.js` (lines 523–549
and, identically, 811–837). -/
def MAX_HISTORY_TOKENS : Nat := 1500

def MAX_HISTORY_MESSAGES_FALLBACK : Nat := 8

/-- The `keepCount` loop of the limiter: walk the history from the newest
message down, accumulating `estimateTokens(content) + 10`, and stop at the
first message that would push the total over the budget.  The input list is
the history reversed (newest first). -/
def keepWithinBudget (budget : Nat) : List ChatMsg → Nat → Nat
  | [], _ => 0
  | m :: rest, acc =>
    let msgTokens := estimateTokens m.content + 10
    if acc + msgTokens ≤ budget then 1 + keepWithinBudget budget rest (acc + msgTokens)
    else 0

/-- JS `arr.slice(-k)` for a nonnegative `k`: the last `k` elements — except
that for `k = 0` JavaScript evaluates `slice(-0)` as `slice(0)` and returns
the whole array. -/
def jsSliceLast (l : List α) (k : Nat) : List α :=
  if k = 0 then l else l.drop (l.length - k)

/-- The token-based history limiter of `index.js` (lines 523–549 / 811–837):
if the estimated tokens exceed the budget, keep the longest suffix within
budget (`slice(-keepCount)`); otherwise, if more than 8 messages, keep the
last 8; otherwise keep everything. -/
def limitHistoryTokens (conversationHistory : List ChatMsg) : List ChatMsg :=
  let historyTokens := estimateMessagesTokens conversationHistory
  if historyTokens > MAX_HISTORY_TOKENS then
    jsSliceLast conversationHistory
      (keepWithinBudget MAX_HISTORY_TOKENS conversationHistory.reverse 0)
  else if conversationHistory.length > MAX_HISTORY_MESSAGES_FALLBACK then
    jsSliceLast conversationHistory MAX_HISTORY_MESSAGES_FALLBACK
  else conversationHistory

/-- The full history read path of both request handlers in `index.js`:
`getUserConversationHistory` (message-count cap) followed by the token
limiter, applied to every history read before use. -/
def readRecentHistory (stored : List StoredMsg) : List ChatMsg :=
  limitHistoryTokens (getUserConversationHistory stored MAX_HISTORY_MESSAGES)

/-! ## Concrete inputs used by counterexamples and witnesses -/

/-- A query embedding with perfect-square norm (`9 + 16 = 25`). -/
def qe0 : List ℚ := [3, 4]

/-- Three candidate documents; the first two live in the same file
(`docs/a.pdf` and `a.pdf` share the basename `a.pdf`) with similarities `1`
and `24/25`, the third in `b.pdf` with similarity `4/5`. -/
def docsDup : List RawDoc :=
  [ { id := "1", text := "ta1", source := "docs/a.pdf", course_name := "c",
      embedding := some [3, 4] },
    { id := "2", text := "ta2", source := "a.pdf", course_name := "c",
      embedding := some [4, 3] },
    { id := "3", text := "tb", source := "b.pdf", course_name := "c",
      embedding := some [0, 5] } ]

/-- A 55-character query. -/
def q55a : String := "aaaaaaaaaaaaaaaaaaaaaaaaaaaaaaaaaaaaaaaaaaaaaaaaaaaaaaa"

/-- Another 55-character query, equal to `q55a` on the first 50 characters
and different from it afterwards. -/
def q55b : String := "aaaaaaaaaaaaaaaaaaaaaaaaaaaaaaaaaaaaaaaaaaaaaaaaaaxxxxx"

/-- Decidable equality on `Except`, needed to evaluate the embedded
fallible functions in concrete counterexamples. -/
instance {ε α : Type _} [DecidableEq ε] [DecidableEq α] : DecidableEq (Except ε α) :=
  fun x y =>
    match x, y with
    | Except.ok a, Except.ok b =>
      if h : a = b then Decidable.isTrue (by rw [h])
      else Decidable.isFalse (fun hh => h (Except.ok.inj hh))
    | Except.error e, Except.error f =>
      if h : e = f then Decidable.isTrue (by rw [h])
      else Decidable.isFalse (fun hh => h (Except.error.inj hh))
    | Except.ok _, Except.error _ => Decidable.isFalse (fun hh => Except.noConfusion hh)
    | Except.error _, Except.ok _ => Decidable.isFalse (fun hh => Except.noConfusion hh)

/-- The retrieval result the code computes on `qe0` / `docsDup`: both chunks
of the duplicated source `a.pdf` survive in `chunks`, while `sources` keeps
only the first. -/
def ragResultDup : RagResult :=
  { chunks := ["ta1", "ta2", "tb"]
    sources := [ { source := "docs/a.pdf", score := 1, course_name := "c" },
                 { source := "b.pdf", score := 4 / 5, course_name := "c" } ]
    metrics := { status := "success", retrieved_count := 3, processed_count := 3,
                 returned_count := 3 } }

/-! # Theorems

Helper lemmas first, then one theorem (plus counterexample / witness) per
claim. -/

theorem sum_squares_eq_zero (l : List ℚ) :
    (l.map (fun a => a * a)).sum = 0 ↔ ∀ x ∈ l, x = 0 := by
  induction l with
  | nil => simp
  | cons a rest ih =>
    simp only [List.map_cons, List.sum_cons, List.mem_cons]
    constructor
    · intro h
      have hrest : (0 : ℚ) ≤ (rest.map (fun a => a * a)).sum := by
        apply List.sum_nonneg
        intro x hx
        obtain ⟨y, _, rfl⟩ := List.mem_map.mp hx
        exact mul_self_nonneg y
      have ha : a * a = 0 := by nlinarith [mul_self_nonneg a]
      have ha0 : a = 0 := by
        exact mul_self_eq_zero.mp ha
      refine fun x hx => ?_
      rcases hx with rfl | hx
      · exact ha0
      · have : (rest.map (fun a => a * a)).sum = 0 := by nlinarith [mul_self_nonneg a]
        exact (ih.mp this) x hx
    · intro h
      have ha : a = 0 := h a (Or.inl rfl)
      have hr : (rest.map (fun a => a * a)).sum = 0 :=
        ih.mpr (fun x hx => h x (Or.inr hx))
      simp [ha, hr]

/-- C8.  For vectors of different lengths, or with a zero-norm (all
components zero) vector on either side, `cosineSimilarity` returns exactly
`0`; the function is total (it never throws and its guards preclude the
division). -/
theorem c8_cosine_zero_guards (a b : List ℚ)
    (h : a.length ≠ b.length ∨ (∀ x ∈ a, x = 0) ∨ (∀ x ∈ b, x = 0)) :
    cosineSimilarity a b = 0 := by
  unfold cosineSimilarity
  by_cases hlen : a.length ≠ b.length
  · simp [hlen]
  · simp only [hlen, if_false]
    rcases h with h | h | h
    · exact absurd h hlen
    · have : (a.map (fun x => x * x)).sum = 0 := (sum_squares_eq_zero a).mpr h
      simp [this]
    · have : (b.map (fun x => x * x)).sum = 0 := (sum_squares_eq_zero b).mpr h
      simp [this]

/-- Witness for C8: a mismatched-length pair and an all-zero vector. -/
theorem c8_witness :
    cosineSimilarity [1, 2] [1] = 0 ∧ cosineSimilarity [0, 0] [3, 4] = 0 :=
  ⟨c8_cosine_zero_guards [1, 2] [1] (Or.inl (by decide)),
   c8_cosine_zero_guards [0, 0] [3, 4] (Or.inr (Or.inl (by decide)))⟩


theorem obsA_none (t : Nat) : obsA none t = false := rfl

theorem toBatchesFuel_flatten (n : Nat) (fuel : Nat) (l : List α)
    (h : l.length ≤ fuel) : (toBatchesFuel n fuel l).flatten = l := by
  induction fuel generalizing l with
  | zero =>
    cases l with
    | nil => rfl
    | cons x xs => simp at h
  | succ fuel ih =>
    cases l with
    | nil => rfl
    | cons x xs =>
      rw [toBatchesFuel]
      simp only [List.flatten_cons]
      rw [ih (xs.drop (n - 1)) (by simp at h ⊢; omega)]
      simp [List.take_append_drop]

theorem toBatches_flatten (n : Nat) (l : List α) : (toBatches n l).flatten = l :=
  toBatchesFuel_flatten n l.length l (Nat.le_refl _)

theorem scoreBatch_none (qe : List ℚ) (b : List RawDoc) (t : Nat) :
    scoreBatch qe none b t = (b.filterMap (scoreDocPure qe), t + b.length) := by
  induction b generalizing t with
  | nil => simp [scoreBatch]
  | cons d rest ih =>
    simp only [scoreBatch, scoreDocAt, obsA_none, if_false, ih, List.filterMap_cons,
      List.length_cons, Bool.false_eq_true]
    cases scoreDocPure qe d <;> simp <;> omega

theorem batchLoop_none_fst (qe : List ℚ) (bs : List (List RawDoc)) (t : Nat)
    (acc : List ScoredChunk) :
    (batchLoop qe none bs t acc).1 = acc ++ bs.flatten.filterMap (scoreDocPure qe) := by
  induction bs generalizing t acc with
  | nil => simp [batchLoop]
  | cons b rest ih =>
    simp only [batchLoop, obsA_none, Bool.false_eq_true, if_false, scoreBatch_none, ih,
      List.flatten_cons, List.filterMap_append, List.append_assoc]

theorem buildResults_none (l : List ScoredChunk) (t : Nat) (cks : List String)
    (srcs : List SourceRef) (seen : List String) :
    buildResults none l t cks srcs seen =
      (cks ++ (l.filter passPred).map ScoredChunk.text,
       srcs ++ dedupFirstBySource (l.filter passPred) seen,
       t + l.length) := by
  induction l generalizing t cks srcs seen with
  | nil => simp [buildResults, dedupFirstBySource]
  | cons r rest ih =>
    by_cases hp : r.text ≠ "" ∧ r.similarity > ragThreshold
    · have hpb : passPred r = true := decide_eq_true hp
      by_cases hseen : normKey r ∈ seen
      · rw [buildResults]
        rw [if_neg (by simp [obsA_none]), if_pos hp,
          if_pos (show normalizeSource (if r.source = "" then "unknown" else r.source) ∈ seen from hseen)]
        rw [ih]
        simp only [List.filter_cons, hpb, if_true, dedupFirstBySource, if_pos hseen,
          List.map_cons, List.length_cons, List.append_assoc, List.singleton_append]
        refine congrArg _ (congrArg _ ?_)
        omega
      · rw [buildResults]
        rw [if_neg (by simp [obsA_none]), if_pos hp,
          if_neg (show ¬ normalizeSource (if r.source = "" then "unknown" else r.source) ∈ seen from hseen)]
        rw [ih]
        simp only [List.filter_cons, hpb, if_true, dedupFirstBySource, if_neg hseen,
          List.map_cons, List.length_cons, List.append_assoc, List.singleton_append]
        refine congrArg _ (congrArg _ ?_)
        omega
    · have hpb : passPred r = false := by
        simp only [passPred, decide_eq_false_iff_not]
        exact hp
      rw [buildResults]
      rw [if_neg (by simp [obsA_none]), if_neg hp]
      rw [ih]
      simp only [List.filter_cons, hpb, List.length_cons]
      refine congrArg _ (congrArg _ ?_)
      omega

theorem performRAGWork_none_spec (qe : List ℚ) (docs : List RawDoc) (topK : Nat)
    (h : docs ≠ []) :
    (performRAGWork qe docs topK none).1 =
      Except.ok
        { chunks := (passingOf qe docs topK).map ScoredChunk.text
          sources := dedupFirstBySource (passingOf qe docs topK) []
          metrics :=
            { status := "success", retrieved_count := docs.length,
              processed_count := (scoreAll qe docs).length,
              returned_count := ((passingOf qe docs topK).map ScoredChunk.text).length } } := by
  simp only [performRAGWork, obsA_none, Bool.false_eq_true, if_false, if_neg h,
    batchLoop_none_fst, toBatches_flatten, buildResults_none, List.nil_append,
    passingOf, scoreAll]

theorem dedupFirstBySource_keys (l : List ScoredChunk) (seen : List String) :
    ((dedupFirstBySource l seen).map srcKey).Nodup ∧
      ∀ s ∈ dedupFirstBySource l seen, srcKey s ∉ seen := by
  induction l generalizing seen with
  | nil => simp [dedupFirstBySource]
  | cons r rest ih =>
    by_cases hseen : normKey r ∈ seen
    · simp only [dedupFirstBySource, if_pos hseen]
      exact ih seen
    · obtain ⟨ihn, ihs⟩ := ih (seen ++ [normKey r])
      have hkey :
          srcKey { source := r.source, score := r.similarity, course_name := r.course_name } =
            normKey r := rfl
      simp only [dedupFirstBySource, if_neg hseen, List.map_cons, List.nodup_cons, hkey]
      refine ⟨⟨?_, ihn⟩, ?_⟩
      · intro hmem
        obtain ⟨s, hs, hks⟩ := List.mem_map.mp hmem
        have hnot := ihs s hs
        rw [hks] at hnot
        exact hnot (List.mem_append_right _ (List.mem_singleton.mpr rfl))
      · intro s hs
        rcases List.mem_cons.mp hs with rfl | hs'
        · rw [hkey]
          exact hseen
        · intro habs
          exact (ihs s hs') (List.mem_append_left _ habs)

theorem dedupFirstBySource_length_le (l : List ScoredChunk) (seen : List String) :
    (dedupFirstBySource l seen).length ≤ l.length := by
  induction l generalizing seen with
  | nil => simp [dedupFirstBySource]
  | cons r rest ih =>
    by_cases hseen : normKey r ∈ seen
    · simp only [dedupFirstBySource, if_pos hseen, List.length_cons]
      exact le_trans (ih seen) (Nat.le_succ _)
    · simp only [dedupFirstBySource, if_neg hseen, List.length_cons]
      exact Nat.succ_le_succ (ih _)

theorem dedupFirstBySource_length_lt (l : List ScoredChunk) (seen : List String)
    (h : ¬ (l.map normKey).Nodup ∨ ∃ r ∈ l, normKey r ∈ seen) :
    (dedupFirstBySource l seen).length < l.length := by
  induction l generalizing seen with
  | nil =>
    exfalso
    rcases h with h | ⟨r, hr, _⟩
    · exact h (by simp)
    · exact absurd hr (List.not_mem_nil r)
  | cons r rest ih =>
    by_cases hseen : normKey r ∈ seen
    · simp only [dedupFirstBySource, if_pos hseen, List.length_cons]
      exact Nat.lt_succ_of_le (dedupFirstBySource_length_le rest seen)
    · simp only [dedupFirstBySource, if_neg hseen, List.length_cons]
      refine Nat.succ_lt_succ (ih _ ?_)
      rcases h with h | ⟨x, hx, hxs⟩
      · simp only [List.map_cons, List.nodup_cons, not_and_or] at h
        rcases h with h | h
        · push_neg at h
          obtain ⟨x, hx, hxk⟩ := List.mem_map.mp h
          exact Or.inr ⟨x, hx, by rw [hxk]; exact List.mem_append_right _ (by simp)⟩
        · exact Or.inl h
      · rcases List.mem_cons.mp hx with rfl | hx'
        · exact absurd hxs hseen
        · exact Or.inr ⟨x, hx', List.mem_append_left _ hxs⟩

theorem contextSegments_overflow (rest : List String) (c : String) (i : Nat)
    (sources : List SourceRef) (h : sources.length < i + (c :: rest).length) :
    contextSegments sources (c :: rest) i = Except.error ("TypeError") := by
  induction rest generalizing i c with
  | nil =>
    simp only [List.length_cons, List.length_nil, Nat.zero_add] at h
    have hnone : sources[i]? = none := by
      rw [List.getElem?_eq_none_iff]
      omega
    rw [contextSegments]
    simp [hnone]
  | cons c2 rest2 ih =>
    rw [contextSegments]
    cases hg : sources[i]? with
    | none => rw [List.get?_eq_getElem?, hg]
    | some s =>
      rw [List.get?_eq_getElem?, hg, ih c2 (i + 1) (by simp at h ⊢; omega)]

/-- C1 (amended).  On an abort-free retrieval run, the returned `sources`
list is deduplicated by normalized source identifier with the first
(highest-ranked) occurrence winning — it equals the specification-style
`dedupFirstBySource` of the passing candidates and its normalized keys are
pairwise distinct — but the returned `chunks` list is NOT deduplicated: it
keeps every candidate that survives sorting, top-K slicing and the
threshold filter, duplicates of the same source included. -/
theorem c1_amended_sources_dedup (qe : List ℚ) (docs : List RawDoc) (topK : Nat)
    (r : RagResult) (h : (performRAGWork qe docs topK none).1 = Except.ok r) :
    r.chunks = (passingOf qe docs topK).map ScoredChunk.text ∧
    r.sources = dedupFirstBySource (passingOf qe docs topK) [] ∧
    (r.sources.map srcKey).Nodup := by
  by_cases hd : docs = []
  · subst hd
    have hempty : (performRAGWork qe [] topK none).1 =
        Except.ok
          { chunks := []
            sources := []
            metrics := { status := "no_chunks", retrieved_count := 0,
                         processed_count := 0, returned_count := 0 } } := rfl
    rw [hempty] at h
    obtain rfl := Except.ok.inj h
    refine ⟨?_, ?_, ?_⟩ <;>
      simp [passingOf, scoreAll, sortBySimilarityDesc, stableSortBy, dedupFirstBySource,
        List.take_nil]
  · rw [performRAGWork_none_spec qe docs topK hd] at h
    obtain rfl := Except.ok.inj h
    exact ⟨rfl, rfl, (dedupFirstBySource_keys _ _).1⟩

/-- C1 counterexample.  On `qe0` / `docsDup` the first two candidates come
from the same normalized source `a.pdf` (`docs/a.pdf` and `a.pdf`), both
pass the threshold inside the top-3, and BOTH of their chunks (`ta1`,
`ta2`) appear in the returned `chunks` — more than one chunk per normalized
source survives, contradicting the claim; only `sources` is deduplicated. -/
theorem c1_counterexample :
    (performRAGWork qe0 docsDup 3 none).1 = Except.ok ragResultDup ∧
    normKey { id := "1", text := "ta1", source := "docs/a.pdf", course_name := "c",
              similarity := 1 } =
      normKey { id := "2", text := "ta2", source := "a.pdf", course_name := "c",
                similarity := 24 / 25 } ∧
    ragResultDup.chunks.length = 3 ∧ ragResultDup.sources.length = 2 := by
  refine ⟨?_, ?_, rfl, rfl⟩
  · norm_num [performRAGWork, batchLoop, scoreBatch, scoreDocAt, scoreDocPure, obsA,
      toBatches, toBatchesFuel, docsDup, qe0, cosineSimilarity, ratSqrt, isqrt, isqrtAux,
      sortBySimilarityDesc, stableSortBy, insertBy, buildResults, ragThreshold,
      normalizeSource, afterLastSep, ragResultDup]
    simp
  · simp [normKey, normalizeSource, afterLastSep]

/-- Witness for C1 (amended): the amended theorem applied to the concrete
abort-free run on `qe0` / `docsDup`. -/
theorem c1_witness :
    (performRAGWork qe0 docsDup 3 none).1 = Except.ok ragResultDup ∧
    (ragResultDup.chunks = (passingOf qe0 docsDup 3).map ScoredChunk.text ∧
     ragResultDup.sources = dedupFirstBySource (passingOf qe0 docsDup 3) [] ∧
     (ragResultDup.sources.map srcKey).Nodup) := by
  have hc : (performRAGWork qe0 docsDup 3 none).1 = Except.ok ragResultDup := by
    norm_num [performRAGWork, batchLoop, scoreBatch, scoreDocAt, scoreDocPure, obsA,
      toBatches, toBatchesFuel, docsDup, qe0, cosineSimilarity, ratSqrt, isqrt, isqrtAux,
      sortBySimilarityDesc, stableSortBy, insertBy, buildResults, ragThreshold,
      normalizeSource, afterLastSep, ragResultDup]
    simp
  exact ⟨hc, c1_amended_sources_dedup qe0 docsDup 3 ragResultDup hc⟩

/-- C9.  Whenever more than one candidate of the same normalized source
passes the threshold within the top-K (so `chunks` is strictly longer than
the deduplicated `sources`), the context-building step of `getRAGContext`
reads `sources[i]` past the end of `sources` and dereferencing `.source` on
the resulting `undefined` throws a `TypeError` instead of returning a
context. -/
theorem c9_typeerror (now : Nat) (qt : String) (topK : Nat) (course : Option String)
    (qe : List ℚ) (docs : List RawDoc)
    (hdup : ¬ ((passingOf qe docs topK).map normKey).Nodup) :
    getRAGContext [] now qt topK course false false qe docs none =
      Except.error ("TypeError") := by
  have hd : docs ≠ [] := by
    intro hnil
    subst hnil
    exact hdup (by simp [passingOf, scoreAll, sortBySimilarityDesc, stableSortBy,
      List.take_nil])
  have hwork := performRAGWork_none_spec qe docs topK hd
  have hcache : getCachedResult [] now (getCacheKey qt course) = none := rfl
  have hq : queryRAG [] now qt topK course false false qe docs none =
      { chunks := (passingOf qe docs topK).map ScoredChunk.text
        sources := dedupFirstBySource (passingOf qe docs topK) []
        metrics :=
          { status := "success", retrieved_count := docs.length,
            processed_count := (scoreAll qe docs).length,
            returned_count := ((passingOf qe docs topK).map ScoredChunk.text).length } } := by
    rw [queryRAG, hcache]
    simp only [hwork, Bool.false_eq_true, false_and, if_false]
  rw [getRAGContext, hq]
  have hpne : passingOf qe docs topK ≠ [] := by
    intro hnil
    rw [hnil] at hdup
    exact hdup (by simp)
  obtain ⟨p, ps, hp⟩ : ∃ p ps, passingOf qe docs topK = p :: ps :=
    List.exists_cons_of_ne_nil hpne
  have hlt : (dedupFirstBySource (passingOf qe docs topK) []).length <
      (passingOf qe docs topK).length :=
    dedupFirstBySource_length_lt _ _ (Or.inl hdup)
  rw [getRAGContextOfResult]
  rw [if_neg (by simp [hp])]
  rw [hp]
  simp only [List.map_cons]
  rw [contextSegments_overflow _ _ _ _ (by rw [hp] at hlt; simpa using hlt)]

/-- Witness for C9: the concrete duplicated-source run raises the
`TypeError`. -/
theorem c9_witness :
    getRAGContext [] 0 ("q") 3 none false false qe0 docsDup none =
      Except.error ("TypeError") := by
  refine c9_typeerror 0 ("q") 3 none qe0 docsDup ?_
  norm_num [passingOf, scoreAll, docsDup, qe0, scoreDocPure, cosineSimilarity, ratSqrt,
    isqrt, isqrtAux, List.filterMap_cons, sortBySimilarityDesc, stableSortBy, insertBy,
    passPred, ragThreshold, List.filter_cons]
  decide

/-- C5.  For the default (fresh) user state and the prompt `ממוצע`,
`decideTurn` yields a diagnosis-only turn in phase `DIAGNOSE` with the
topic `mean`. -/
theorem c5_fresh_mean :
    (decideTurn ("ממוצע") (defaultUserState (""))).diagnosisOnly = true ∧
    (decideTurn ("ממוצע") (defaultUserState (""))).nextState.phase = "DIAGNOSE" ∧
    (decideTurn ("ממוצע") (defaultUserState (""))).nextState.currentTopic = some ("mean") := by
  decide

/-- Helper: a topic id is always a member of the diagnosed-topics object
after marking it. -/
theorem mem_markDiagnosed (l : List String) (x : String) : x ∈ markDiagnosed l x := by
  unfold markDiagnosed
  by_cases h : x ∈ l
  · rw [if_pos h]
    exact h
  · rw [if_neg h]
    exact List.mem_append_right _ (List.mem_singleton.mpr rfl)

/-- C6.  In every state with phase `DIAGNOSE` and topic `mean`, the answer
prompt `B` ends diagnosis: `diagnosisOnly` is false, the phase moves to
`TEACH`, and `mean` is marked diagnosed. -/
theorem c6_answer_to_teach (state : UserState) (h1 : state.phase = "DIAGNOSE")
    (h2 : state.currentTopic = some ("mean")) :
    (decideTurn ("B") state).diagnosisOnly = false ∧
    (decideTurn ("B") state).nextState.phase = "TEACH" ∧
    "mean" ∈ (decideTurn ("B") state).nextState.diagnosedTopics := by
  obtain ⟨e, ct, ph, dts⟩ := state
  simp only at h1 h2
  subst h1
  subst h2
  refine ⟨rfl, rfl, ?_⟩
  show ("mean") ∈ markDiagnosed dts ("mean")
  exact mem_markDiagnosed dts ("mean")

/-- Witness for C6: the theorem applied to a concrete `DIAGNOSE`/`mean`
state. -/
theorem c6_witness :
    (decideTurn ("B") { email := "u", currentTopic := some ("mean"),
                        phase := "DIAGNOSE", diagnosedTopics := [] }).diagnosisOnly = false ∧
    (decideTurn ("B") { email := "u", currentTopic := some ("mean"),
                        phase := "DIAGNOSE", diagnosedTopics := [] }).nextState.phase = "TEACH" ∧
    "mean" ∈ (decideTurn ("B") { email := "u", currentTopic := some ("mean"),
                                 phase := "DIAGNOSE",
                                 diagnosedTopics := [] }).nextState.diagnosedTopics :=
  c6_answer_to_teach _ rfl rfl

/-- C2 (amended).  `decideTurn` preserves `phase = DIAGNOSE → topic ≠ null`
except in one reachable case: when no topic is known at all (the incoming
state has no current topic and the prompt matches no topic rule), the next
state is `DIAGNOSE` with a null topic.  Formally: whenever the next phase is
`DIAGNOSE`, the next topic is non-null or the input topic was null with an
undetected prompt topic. -/
theorem c2_amended_diagnose_topic (prompt : String) (state : UserState)
    (_hinv : state.phase = "DIAGNOSE" → jsTopicOrNull state.currentTopic ≠ none)
    (_hph : (decideTurn prompt state).nextState.phase = "DIAGNOSE") :
    (decideTurn prompt state).nextState.currentTopic ≠ none ∨
      (jsTopicOrNull state.currentTopic = none ∧ detectTopic prompt = "unknown") := by
  by_cases hE : detectTopic prompt = "unknown"
  · cases hCT : jsTopicOrNull state.currentTopic with
    | none => exact Or.inr ⟨rfl, hE⟩
    | some c =>
      left
      simp only [decideTurn, apply_ite UserState.currentTopic, ite_self]
      simp [hE, hCT]
  · left
    simp only [decideTurn, apply_ite UserState.currentTopic, ite_self]
    simp [hE]

/-- C2 counterexample.  The fresh state satisfies the invariant (phase
`IDLE`), yet on the topic-free prompt `hi` the returned next state has
phase `DIAGNOSE` with `currentTopic = null` — the claimed invariant is not
preserved by `decideTurn`. -/
theorem c2_counterexample :
    (defaultUserState ("")).phase = "IDLE" ∧
    (decideTurn ("hi") (defaultUserState (""))).nextState.phase = "DIAGNOSE" ∧
    (decideTurn ("hi") (defaultUserState (""))).nextState.currentTopic = none := by
  decide

/-- Witness for C2 (amended): the amended theorem applied to the prompt
`hi` and the fresh state, where the exceptional (no-topic) disjunct holds. -/
theorem c2_witness :
    (decideTurn ("hi") (defaultUserState (""))).nextState.currentTopic ≠ none ∨
      (jsTopicOrNull (defaultUserState ("")).currentTopic = none ∧
       detectTopic ("hi") = "unknown") :=
  c2_amended_diagnose_topic ("hi") (defaultUserState ("")) (by decide) (by decide)

theorem qMark_pos_iff (s : String) : s.data.contains '?' = true ↔ 1 ≤ qMarkCount s := by
  rw [List.contains_iff_exists_mem_beq]
  unfold qMarkCount
  rw [Nat.succ_le_iff, List.length_pos]
  constructor
  · rintro ⟨a, ha, hb⟩
    intro hnil
    have hb2 : (a == '?') = true := beq_iff_eq.mpr (beq_iff_eq.mp hb).symm
    have hmem : a ∈ s.data.filter (fun c => c == '?') :=
      List.mem_filter.mpr ⟨ha, hb2⟩
    rw [hnil] at hmem
    exact List.not_mem_nil a hmem
  · intro hne
    obtain ⟨a, hmem⟩ := List.exists_mem_of_ne_nil _ hne
    obtain ⟨ha, hb⟩ := List.mem_filter.mp hmem
    exact ⟨a, ha, beq_iff_eq.mpr (beq_iff_eq.mp hb).symm⟩

/-- C3 (amended).  The guard accepts a rendered answer exactly when its
trimmed text is nonempty, at most 320 characters long, splits into at most
2 nonempty sentence segments under the terminator-splitting heuristic (the
code counts segments, not terminator characters), contains between one and
two question marks, and matches no forbidden-content pattern; and on a
diagnosis-only turn the handler substitutes the deterministic
`forcedDiagnosticTemplate` of the topic exactly when the guard rejects. -/
theorem c3_amended_guard (t answer topic : String) :
    (isValidDiagnosisOnlyOutput t = true ↔
      (jsTrim t ≠ "" ∧ (jsTrim t).length ≤ 320 ∧
       countSentencesHeuristically (jsTrim t) ≤ 2 ∧
       1 ≤ qMarkCount (jsTrim t) ∧ qMarkCount (jsTrim t) ≤ 2 ∧
       hasForbiddenDiagnosisContent (jsTrim t) = false)) ∧
    (isValidDiagnosisOnlyOutput answer = false →
      applyDiagnosisGuard true answer topic = forcedDiagnosticTemplate topic) ∧
    (isValidDiagnosisOnlyOutput answer = true →
      applyDiagnosisGuard true answer topic = answer) := by
  refine ⟨?_, ?_, ?_⟩
  · unfold isValidDiagnosisOnlyOutput
    simp only []
    split_ifs with h1 h2 h3 h4 h5 h6 <;> simp_all [← qMark_pos_iff]
  · intro h
    simp [applyDiagnosisGuard, h]
  · intro h
    simp [applyDiagnosisGuard, h]

/-- C3 counterexample.  The guard accepts `a.. b?`, which contains three
sentence-terminator characters (two periods and one question mark): the
guard does not enforce "at most 2 sentence-terminators" — it bounds the
number of nonempty segments between terminators instead. -/
theorem c3_counterexample :
    isValidDiagnosisOnlyOutput ("a.. b?") = true ∧
    countSentenceTerminators ("a.. b?") = 3 := by
  decide

/-- Witness for C3 (amended): a rejected answer (it contains `=`) is
replaced by the topic template, an accepted one passes through unchanged. -/
theorem c3_witness :
    isValidDiagnosisOnlyOutput ("שלום =") = false ∧
    applyDiagnosisGuard true ("שלום =") ("mean") = forcedDiagnosticTemplate ("mean") ∧
    isValidDiagnosisOnlyOutput ("מה אתה יודע?") = true ∧
    applyDiagnosisGuard true ("מה אתה יודע?") ("mean") = "מה אתה יודע?" :=
  ⟨by decide,
   (c3_amended_guard ("x") ("שלום =") ("mean")).2.1 (by decide),
   by decide,
   (c3_amended_guard ("x") ("מה אתה יודע?") ("mean")).2.2 (by decide)⟩

theorem queryRAG_timeout_dispatch (now : Nat) (qt : String) (topK : Nat)
    (course : Option String) (timerWins : Bool) (qe : List ℚ) (docs : List RawDoc)
    (af : Option Nat)
    (h : timerWins = true ∨ (performRAGWork qe docs topK af).1 = Except.error ("RAG_TIMEOUT")) :
    queryRAG [] now qt topK course true timerWins qe docs af = emptyRagResult ("timeout") := by
  have hcache : getCachedResult [] now (getCacheKey qt course) = none := rfl
  rw [queryRAG, hcache]
  rcases h with h | h
  · subst h
    simp
  · cases timerWins with
    | true => simp
    | false => simp [h]

/-- C4.  On a cache miss with the timeout race armed, whenever the retrieval
deadline expires — the timer wins the race, or the shared abort signal is
set at any point at which the engine can actually set it during the
pipeline (`realizableAbort` with a non-`none` index: before entry, during
the embedding await, or during the store-query await; each such schedule
makes the pipeline throw `RAG_TIMEOUT` at one of its guards) — `queryRAG`
returns the well-formed empty result with `chunks = []`, `sources = []` and
status `timeout`; and being a total function into `RagResult`, it never
surfaces an exception to the caller. -/
theorem c4_timeout_result (now : Nat) (qt : String) (topK : Nat)
    (course : Option String) (timerWins : Bool) (qe : List ℚ) (docs : List RawDoc)
    (af : Option Nat) (hreal : realizableAbort af) (h : timerWins = true ∨ af ≠ none) :
    queryRAG [] now qt topK course true timerWins qe docs af = emptyRagResult ("timeout") := by
  rcases hreal with rfl | rfl | rfl | rfl
  · rcases h with h | h
    · exact queryRAG_timeout_dispatch now qt topK course timerWins qe docs none (Or.inl h)
    · exact absurd rfl h
  · exact queryRAG_timeout_dispatch now qt topK course timerWins qe docs (some 0) (Or.inr rfl)
  · exact queryRAG_timeout_dispatch now qt topK course timerWins qe docs (some 1) (Or.inr rfl)
  · exact queryRAG_timeout_dispatch now qt topK course timerWins qe docs (some 3) (Or.inr rfl)

/-- Witness for C4: the timer winning the race, and an abort set during the
store-query await (first observed at the post-query guard, tick 3), both
yield the empty timeout result on the concrete inputs. -/
theorem c4_witness :
    queryRAG [] 0 ("q") 3 none true true qe0 docsDup none = emptyRagResult ("timeout") ∧
    queryRAG [] 0 ("q") 3 none true false qe0 docsDup (some 3) = emptyRagResult ("timeout") :=
  ⟨c4_timeout_result 0 ("q") 3 none true qe0 docsDup none (Or.inl rfl) (Or.inl rfl),
   c4_timeout_result 0 ("q") 3 none false qe0 docsDup (some 3)
     (Or.inr (Or.inr (Or.inr rfl))) (Or.inr (Option.some_ne_none 3))⟩

/-- C7 (code bug).  The read path applies the dual limit — the
message-count cap of `getUserConversationHistory` and the token-budget
trimming of `index.js` — but the trimming loop has a slip: when even the
newest message alone exceeds the 1500-token budget, `keepCount` stays `0`
and `conversationHistory.slice(-0)` is `slice(0)`, so the ENTIRE untrimmed
history is kept.  Evaluated at the failing input (a single stored message
of 8000 characters): the read returns the message whole, with estimated
tokens `⌈8000/4⌉ + 10 = 2010 > 1500 = MAX_HISTORY_TOKENS`, contradicting
the claim (and the code's own comment "max 1500 tokens OR last 8 messages,
whichever is more restrictive"). -/
theorem c7_slice_zero_bug :
    readRecentHistory
        [{ role := "user", content := ⟨List.replicate 8000 'a'⟩, createdAt := 0 }] =
      [{ role := "user", content := ⟨List.replicate 8000 'a'⟩ }] ∧
    estimateMessagesTokens
        (readRecentHistory
          [{ role := "user", content := ⟨List.replicate 8000 'a'⟩, createdAt := 0 }]) =
      2010 ∧
    MAX_HISTORY_TOKENS = 1500 := by
  have hlen : (⟨List.replicate 8000 'a'⟩ : String).length = 8000 := by
    show (List.replicate 8000 'a').length = 8000
    exact List.length_replicate 8000 'a'
  set s : String := ⟨List.replicate 8000 'a'⟩ with hs
  have het : estimateTokens s = 2000 := by
    show (s.length + 3) / 4 = 2000
    rw [hlen]
  have hread : getUserConversationHistory [{ role := "user", content := s, createdAt := 0 }]
      MAX_HISTORY_MESSAGES = [{ role := "user", content := s }] := by
    simp [getUserConversationHistory, stableSortBy, insertBy, MAX_STORED_MESSAGES_PER_USER,
      MAX_HISTORY_MESSAGES]
  have htok : estimateMessagesTokens [{ role := "user", content := s }] = 2010 := by
    simp [estimateMessagesTokens, het]
  have hkeep : keepWithinBudget MAX_HISTORY_TOKENS
      ([({ role := "user", content := s } : ChatMsg)].reverse) 0 = 0 := by
    simp [keepWithinBudget, het, MAX_HISTORY_TOKENS]
  have hlim : limitHistoryTokens [{ role := "user", content := s }] =
      [{ role := "user", content := s }] := by
    rw [limitHistoryTokens]
    simp only [htok]
    rw [if_pos (by norm_num [MAX_HISTORY_TOKENS])]
    rw [hkeep]
    rfl
  rw [readRecentHistory, hread, hlim]
  exact ⟨rfl, htok, rfl⟩

/-- C10.  The retrieval cache keys only on course name and the first 50
characters of the query: a result stored for one query is returned verbatim
(same chunks and sources, status `cache_hit`) for any other query with the
same course and the same first 50 characters, within the TTL, even though
the full query texts differ. -/
theorem c10_cache_key_prefix50 (q1 q2 : String) (course : Option String)
    (d : CachedData) (t0 now : Nat) (topK : Nat) (hasTimeout timerWins : Bool)
    (qe : List ℚ) (docs : List RawDoc) (af : Option Nat)
    (_hne : q1 ≠ q2) (h50 : q1.take 50 = q2.take 50)
    (hage : now - t0 ≤ RAG_CACHE_TTL) :
    queryRAG (setCachedResult [] t0 (getCacheKey q1 course) d) now q2 topK course
        hasTimeout timerWins qe docs af =
      { chunks := d.chunks
        sources := d.sources
        metrics := { status := "cache_hit", retrieved_count := 0, processed_count := 0,
                     returned_count := d.chunks.length } } := by
  have hkey : getCacheKey q2 course = getCacheKey q1 course := by
    unfold getCacheKey
    rw [h50]
  have hfind : cacheFind (setCachedResult [] t0 (getCacheKey q1 course) d)
      (getCacheKey q1 course) = some (t0, d) := by
    unfold setCachedResult cacheFind
    simp
  have hhit : getCachedResult (setCachedResult [] t0 (getCacheKey q1 course) d) now
      (getCacheKey q1 course) = some d := by
    unfold getCachedResult
    rw [hfind]
    simp only []
    rw [if_neg (by simp only [RAG_CACHE_TTL] at hage ⊢; omega)]
  rw [queryRAG, hkey, hhit]

set_option maxRecDepth 4000 in
/-- Witness for C10: two 55-character queries that differ only after their
first 50 characters hit the same cache entry within the TTL. -/
theorem c10_witness :
    queryRAG (setCachedResult [] 0 (getCacheKey q55a none)
        { chunks := ["x"], sources := [] }) 100 q55b 3 none true false [] [] none =
      { chunks := ["x"]
        sources := []
        metrics := { status := "cache_hit", retrieved_count := 0, processed_count := 0,
                     returned_count := 1 } } :=
  c10_cache_key_prefix50 q55a q55b none { chunks := ["x"], sources := [] } 0 100 3
    true false [] [] none (by decide) (by decide) (by decide)
